import Mathlib

/-!
Verification of the line-streaming core of the webrtc-poc repository.

This file gives a shallow embedding of the streaming-related functions of the
repository and proves properties about them:

* `StreamFile` / `StreamFileP` embed `StreamFile` from
  `internal/server/server.go` (lines 13-53), including its `defer`/`recover`
  wrapper, the `bufio.Scanner` line splitting (with the default
  64 KiB token-size limit and the CR-stripping of `bufio.ScanLines`), the
  per-line `writer.SendText` call and the early `return err` on send failure.
* `ProcessLines` / `procLoop` embed `ProcessLines` from
  `internal/client/client.go` (lines 19-84): sink resolution (stdout vs.
  `os.Create`), the `select` event loop over the line channel and the error
  channel, the `io.EOF` special case, and the count/err return values.
* `offerHandler` embeds the `/offer` HTTP handler of
  `cmd/webrtc-poc/main.go` (lines 185-295), with the outcomes of the external
  webrtc negotiation steps supplied as an explicit environment.
* `SrvStep` embeds the shutdown coordination of `runServer`
  (`cmd/webrtc-poc/main.go` lines 177-319): `wg.Add(1)` on data-channel open,
  `wg.Done` when a streaming goroutine finishes, `<-shutdown; server.Close()`,
  and `wg.Wait()` before the final return.

Strings are modelled as `List Char`; channel traffic is modelled as an
explicit event trace; the outcome of external effects (file creation, sink
writes, channel sends, webrtc calls) is passed in as oracles, so that each
Go execution corresponds to one choice of oracle values.
-/

namespace WebrtcPoc

/-- A line of text, as a list of characters (Go `string`). -/
abbrev Line := List Char

/-- Errors that flow through the embedded code.  `eof` stands for Go's
`io.EOF` sentinel; `openErr` for an `os.Open` failure; `createErr` for an
`os.Create` failure; `tooLong` for `bufio.ErrTooLong`; `ioErr n` is an
arbitrary distinct I/O or transport error. -/
inductive GoErr
  | openErr
  | createErr
  | tooLong
  | eof
  | ioErr (n : Nat)
deriving DecidableEq

/-! ## The scanner: `bufio.Scanner` with `bufio.ScanLines` -/

/-- Model of the `dropCR` helper of `bufio.ScanLines`: drop a single trailing
carriage return from a scanned token. -/
def dropCR (l : Line) : Line :=
  if l.getLast? = some '\r' then l.dropLast else l

/-- Helper for `rawSegs`: accumulate the current (unterminated) segment. -/
def rawSegsAux : List Char → Line → List Line
  | [], acc => if acc.isEmpty then [] else [acc]
  | c :: cs, acc =>
    if c = '\n' then acc :: rawSegsAux cs [] else rawSegsAux cs (acc ++ [c])

/-- The raw newline-delimited segments of a file: the maximal runs of
characters between `'\n'` boundaries, where a trailing run without a final
newline is kept only when nonempty.  This matches what `bufio.ScanLines`
treats as one token (before its CR-stripping), including the rule that a
trailing partial line is still emitted. -/
def rawSegs (cs : List Char) : List Line := rawSegsAux cs []

/-- Default `bufio.MaxScanTokenSize` (64 KiB). -/
def maxScanTokenSize : Nat := 65536

/-- Model of repeatedly calling `scanner.Scan()`/`scanner.Text()` on the raw
segments of the file with the default buffer limits: tokens are the
CR-stripped segments, in order, up to (excluding) the first segment that no
longer fits in the maximal buffer (`len >= 65536` makes the buffer fill
without finding a newline, so `Scan` stops and `Err()` reports
`bufio.ErrTooLong`, modelled by the `Bool` component). -/
def scanSegs : List Line → List Line × Bool
  | [] => ([], false)
  | s :: rest =>
    if maxScanTokenSize ≤ s.length then ([], true)
    else
      let r := scanSegs rest
      (dropCR s :: r.1, r.2)

/-- The list of lines `StreamFile`'s scanner yields for a file content. -/
def fileTokens (content : List Char) : List Line := (scanSegs (rawSegs content)).1

/-! ## `StreamFile` (internal/server/server.go lines 13-53) -/

/-- Result of one iteration structure of `StreamFile`'s scan loop: either the
loop ran to a `return` (with the delivered lines and the returned error), or
a panic unwound out of the loop (carrying the lines already delivered). -/
inductive LoopOut
  | done (delivered : List Line) (ret : Option GoErr)
  | panicked (delivered : List Line)
deriving DecidableEq

/-- The scan loop of `StreamFile` (server.go lines 30-49).  `send i t` is the
outcome of the `writer.SendText` call for the `i`-th line (0-based);
`panicAt = some i` injects an unexpected fault at iteration `i` (before the
send), modelling a panic during scanning; `scanErr` is whether
`scanner.Err()` reports `bufio.ErrTooLong` after the loop.  On a failed send
the function returns that error immediately (the failing line is not
delivered, later lines are never attempted, `scanner.Err()` is never
consulted).  The pacing `time.Sleep` affects timing only and is not part of
the functional state. -/
def streamLoop (send : Nat → Line → Option GoErr) (panicAt : Option Nat)
    (scanErr : Bool) : List Line → Nat → List Line → LoopOut
  | [], _, acc => LoopOut.done acc (if scanErr then some GoErr.tooLong else none)
  | t :: ts, i, acc =>
    if panicAt = some i then LoopOut.panicked acc
    else
      match send i t with
      | some e => LoopOut.done acc (some e)
      | none => streamLoop send panicAt scanErr ts (i + 1) (acc ++ [t])

/-- Outcome of a `StreamFile` call: the lines the writer accepted, the
returned `error` value (`none` = `nil`), and whether a panic escaped to the
caller.  Because of the `defer`ed `recover()` at the top of `StreamFile`
(server.go lines 14-18) `crashed` is always `false`, and a recovered panic
makes the function return the zero value `nil`. -/
structure StreamRes where
  delivered : List Line
  ret : Option GoErr
  crashed : Bool
deriving DecidableEq

/-- `StreamFile` with fault injection (server.go lines 13-53).
`file = none` models an `os.Open` failure (the function returns the open
error before any send); otherwise the scanner tokens of the content are
streamed by `streamLoop`.  A panic is recovered by the deferred `recover()`,
which only logs: the function then returns the zero value `nil` for its
`error` result and the panic does not propagate. -/
def StreamFileP (send : Nat → Line → Option GoErr) (file : Option (List Char))
    (panicAt : Option Nat) : StreamRes :=
  match file with
  | none => ⟨[], some GoErr.openErr, false⟩
  | some content =>
    let sc := scanSegs (rawSegs content)
    match streamLoop send panicAt sc.2 sc.1 0 [] with
    | LoopOut.panicked d => ⟨d, none, false⟩
    | LoopOut.done d r => ⟨d, r, false⟩

/-- `StreamFile` without injected faults: the ordinary executions. -/
def StreamFile (send : Nat → Line → Option GoErr) (file : Option (List Char)) :
    StreamRes :=
  StreamFileP send file none

/-! ## `ProcessLines` (internal/client/client.go lines 19-84) -/

/-- One observable event of `ProcessLines`' `select` loop: a value received
from the line channel, the line channel closing, a value received from the
error channel, or the error channel closing.  A Go execution of the loop
corresponds to the sequence of channel operations it performed, in order. -/
inductive Ev
  | line (l : Line)
  | lineClosed
  | errVal (e : GoErr)
  | errClosed
deriving DecidableEq

/-- Result of a `ProcessLines` call: the returned line count, the bytes
written to the output file, the bytes written to standard output, and the
returned `error` (`none` = `nil`).  The elapsed-time result is wall-clock
time and is not part of the functional model. -/
structure ProcRes where
  count : Nat
  fileSink : List Char
  stdout : List Char
  ret : Option GoErr
deriving DecidableEq

/-- The `for { select { ... } }` loop of `ProcessLines` (client.go lines
42-83).  `toFile` says whether an output file is in use; `wr j` is the
outcome of the `outputFile.WriteString` call for the `j`-th received line
(0-based); errors of `os.Stdout.WriteString` are ignored by the code.  On a
line: the count is incremented first, then the line plus a single `'\n'` is
written; a failed file write returns the already-incremented count with the
error.  A closed line channel returns `(count, nil)`.  An error value equal
to `io.EOF` returns `(count, nil)`; any other error value returns `(count,
err)`.  A closed error channel just continues.  `none` means the trace ended
without the loop returning (the Go loop would still be blocked). -/
def procLoop (toFile : Bool) (wr : Nat → Option GoErr) :
    List Ev → Nat → List Char → List Char → Option ProcRes
  | [], _, _, _ => none
  | Ev.lineClosed :: _, count, fs, so => some ⟨count, fs, so, none⟩
  | Ev.line l :: evs, count, fs, so =>
    if toFile then
      match wr count with
      | some e => some ⟨count + 1, fs, so, some e⟩
      | none => procLoop toFile wr evs (count + 1) (fs ++ l ++ ['\n']) so
    else procLoop toFile wr evs (count + 1) fs (so ++ l ++ ['\n'])
  | Ev.errClosed :: evs, count, fs, so => procLoop toFile wr evs count fs so
  | Ev.errVal e :: _, count, fs, so =>
    if e = GoErr.eof then some ⟨count, fs, so, none⟩
    else some ⟨count, fs, so, some e⟩

/-- `ProcessLines` (client.go lines 19-84).  An empty `output` path writes to
standard output; a non-empty path calls `os.Create` (outcome `createOk`): on
failure the function returns `(0, 0, err)` before ever calling
`receiver.ReceiveLines()`, so no event of the trace is consumed and no sink
bytes are written.  Otherwise the event loop runs on the receiver's trace. -/
def ProcessLines (output : String) (createOk : Bool) (wr : Nat → Option GoErr)
    (trace : List Ev) : Option ProcRes :=
  if output = "" then procLoop false wr trace 0 [] []
  else if createOk then procLoop true wr trace 0 [] []
  else some ⟨0, [], [], some GoErr.createErr⟩

/-- The lines joined with a single `'\n'` terminator each: the sink content a
clean transfer of these lines produces. -/
def joinNL : List Line → List Char
  | [] => []
  | l :: ls => l ++ '\n' :: joinNL ls

/-- Composition of the two sides, as wired by the repository (server
`StreamFile` → data channel → client `ProcessLines`): the channel send always
succeeds (the transport is reliable), every delivered line arrives as one
`Ev.line` in order, and the channel close after streaming appears as
`Ev.lineClosed` (client.go: `OnClose` closes the line channel). -/
def streamInto (content : List Char) (output : String) (createOk : Bool)
    (wr : Nat → Option GoErr) : Option ProcRes :=
  ProcessLines output createOk wr
    (((StreamFile (fun _ _ => none) (some content)).delivered.map Ev.line)
      ++ [Ev.lineClosed])

/-! ## Basic lemmas about the scanner model -/

theorem dropCR_no_cr {l : Line} (h : l.getLast? ≠ some '\r') : dropCR l = l :=
  if_neg h

theorem dropCR_concat (l : Line) : dropCR (l ++ ['\r']) = l := by
  simp [dropCR, List.getLast?_concat, List.dropLast_concat]

theorem dropCR_length_le (l : Line) : (dropCR l).length ≤ l.length := by
  unfold dropCR
  split
  · rw [List.length_dropLast]; omega
  · exact Nat.le_refl _

theorem rawSegsAux_no_nl {l : Line} (hl : '\n' ∉ l) :
    ∀ cs acc, rawSegsAux (l ++ cs) acc = rawSegsAux cs (acc ++ l) := by
  induction l with
  | nil => intro cs acc; simp
  | cons c l ih =>
    intro cs acc
    have hc : c ≠ '\n' := fun h => hl (h ▸ List.mem_cons_self c l)
    have hl' : '\n' ∉ l := fun h => hl (List.mem_cons_of_mem c h)
    simp only [List.cons_append, rawSegsAux, if_neg hc, List.append_eq]
    rw [ih hl' cs (acc ++ [c])]
    simp [List.append_assoc]

theorem rawSegs_no_nl {cs : Line} (h : '\n' ∉ cs) (hne : cs ≠ []) :
    rawSegs cs = [cs] := by
  have := rawSegsAux_no_nl h [] []
  simp only [List.append_nil, List.nil_append] at this
  unfold rawSegs
  rw [this]
  simp [rawSegsAux, hne]

theorem scanSegs_all_small {ss : List Line}
    (h : ∀ s ∈ ss, s.length < maxScanTokenSize) :
    scanSegs ss = (ss.map dropCR, false) := by
  induction ss with
  | nil => rfl
  | cons s rest ih =>
    have hs : ¬ maxScanTokenSize ≤ s.length :=
      Nat.not_le.mpr (h s (List.mem_cons_self s rest))
    have hrest : ∀ t ∈ rest, t.length < maxScanTokenSize :=
      fun t ht => h t (List.mem_cons_of_mem s ht)
    simp [scanSegs, hs, ih hrest]

theorem scanSegs_too_long {ss : List Line}
    (h : ∃ s ∈ ss, maxScanTokenSize ≤ s.length) :
    scanSegs ss =
      ((ss.takeWhile fun s => decide (s.length < maxScanTokenSize)).map dropCR,
        true) := by
  induction ss with
  | nil => simp at h
  | cons s rest ih =>
    by_cases hs : maxScanTokenSize ≤ s.length
    · simp [scanSegs, hs, List.takeWhile_cons, Nat.not_lt.mpr hs]
    · obtain ⟨t, ht, htl⟩ := h
      rcases List.mem_cons.mp ht with rfl | ht'
      · exact absurd htl hs
      · have := ih ⟨t, ht', htl⟩
        simp [scanSegs, hs, List.takeWhile_cons, Nat.not_le.mp hs, this]

/-! ## Lemmas about the stream loop -/

theorem streamLoop_ok {send : Nat → Line → Option GoErr}
    (hs : ∀ j t, send j t = none) (sErr : Bool) :
    ∀ (ts : List Line) (i : Nat) (acc : List Line),
      streamLoop send none sErr ts i acc =
        LoopOut.done (acc ++ ts) (if sErr then some GoErr.tooLong else none) := by
  intro ts
  induction ts with
  | nil => intro i acc; simp [streamLoop]
  | cons t ts ih =>
    intro i acc
    simp [streamLoop, hs, ih (i + 1) (acc ++ [t])]

theorem streamLoop_fail {send : Nat → Line → Option GoErr} {e : GoErr}
    (sErr : Bool) :
    ∀ (ts : List Line) (k i : Nat) (acc : List Line) (hk : k < ts.length),
      (∀ j t, j < k → send (i + j) t = none) →
      send (i + k) (ts.get ⟨k, hk⟩) = some e →
      streamLoop send none sErr ts i acc =
        LoopOut.done (acc ++ ts.take k) (some e) := by
  intro ts
  induction ts with
  | nil => intro k i acc hk; exact absurd hk (by simp)
  | cons t ts ih =>
    intro k i acc hk hok hf
    cases k with
    | zero =>
      have hf0 : send i t = some e := by simpa using hf
      simp [streamLoop, hf0]
    | succ k =>
      have h0 : send i t = none := by
        have := hok 0 t (Nat.succ_pos k)
        simpa using this
      have hok' : ∀ j u, j < k → send (i + 1 + j) u = none := by
        intro j u hj
        have := hok (j + 1) u (Nat.succ_lt_succ hj)
        simpa [Nat.add_assoc, Nat.add_comm 1 j] using this
      have hf' : send (i + 1 + k) (ts.get ⟨k, Nat.lt_of_succ_lt_succ hk⟩) = some e := by
        have : i + 1 + k = i + (k + 1) := by omega
        rw [this]
        exact hf
      have hstep : streamLoop send none sErr (t :: ts) i acc
          = streamLoop send none sErr ts (i + 1) (acc ++ [t]) := by
        simp [streamLoop, h0]
      rw [hstep, ih k (i + 1) (acc ++ [t]) (Nat.lt_of_succ_lt_succ hk) hok' hf']
      simp [List.take_succ_cons]

theorem streamLoop_panic {send : Nat → Line → Option GoErr} (sErr : Bool) :
    ∀ (ts : List Line) (k i : Nat) (acc : List Line),
      k < ts.length →
      (∀ j t, j < k → send (i + j) t = none) →
      streamLoop send (some (i + k)) sErr ts i acc =
        LoopOut.panicked (acc ++ ts.take k) := by
  intro ts
  induction ts with
  | nil => intro k i acc hk; exact absurd hk (by simp)
  | cons t ts ih =>
    intro k i acc hk hok
    cases k with
    | zero => simp [streamLoop]
    | succ k =>
      have h0 : send i t = none := by
        have := hok 0 t (Nat.succ_pos k)
        simpa using this
      have hok' : ∀ j u, j < k → send (i + 1 + j) u = none := by
        intro j u hj
        have := hok (j + 1) u (Nat.succ_lt_succ hj)
        simpa [Nat.add_assoc, Nat.add_comm 1 j] using this
      have hne : ¬ (some (i + (k + 1)) = some i) := by
        simp only [Option.some.injEq]; omega
      simp only [streamLoop, if_neg hne, h0]
      have : i + (k + 1) = i + 1 + k := by omega
      rw [this, ih k (i + 1) (acc ++ [t]) (Nat.lt_of_succ_lt_succ hk) hok']
      simp [List.take_succ_cons]

/-- Closed form of `StreamFile` over a fully working writer: every scanner
token is delivered and the returned error is the scan error, if any. -/
theorem StreamFile_ok_of_scan {send : Nat → Line → Option GoErr}
    (hs : ∀ j t, send j t = none) (content : List Char) :
    StreamFile send (some content) =
      ⟨(scanSegs (rawSegs content)).1,
        if (scanSegs (rawSegs content)).2 then some GoErr.tooLong else none,
        false⟩ := by
  simp only [StreamFile, StreamFileP]
  rw [streamLoop_ok hs _ _ 0 []]
  simp

/-! ## Lemmas about the `ProcessLines` event loop -/

theorem procLoop_stdout_lines (wr : Nat → Option GoErr) :
    ∀ (lines : List Line) (rest : List Ev) (c : Nat) (fs so : List Char),
      procLoop false wr (lines.map Ev.line ++ rest) c fs so =
        procLoop false wr rest (c + lines.length) fs (so ++ joinNL lines) := by
  intro lines
  induction lines with
  | nil => intro rest c fs so; simp [joinNL]
  | cons l ls ih =>
    intro rest c fs so
    have hstep : procLoop false wr ((Ev.line l :: ls.map Ev.line) ++ rest) c fs so
        = procLoop false wr (ls.map Ev.line ++ rest) (c + 1) fs (so ++ l ++ ['\n']) := rfl
    simp only [List.map_cons]
    have harith : c + 1 + ls.length = c + (ls.length + 1) := by omega
    rw [hstep, ih rest (c + 1) fs (so ++ l ++ ['\n']), harith]
    simp [joinNL, List.append_assoc]

theorem procLoop_file_lines {wr : Nat → Option GoErr}
    (hwr : ∀ j, wr j = none) :
    ∀ (lines : List Line) (rest : List Ev) (c : Nat) (fs so : List Char),
      procLoop true wr (lines.map Ev.line ++ rest) c fs so =
        procLoop true wr rest (c + lines.length) (fs ++ joinNL lines) so := by
  intro lines
  induction lines with
  | nil => intro rest c fs so; simp [joinNL]
  | cons l ls ih =>
    intro rest c fs so
    have hstep : procLoop true wr ((Ev.line l :: ls.map Ev.line) ++ rest) c fs so
        = procLoop true wr (ls.map Ev.line ++ rest) (c + 1) (fs ++ l ++ ['\n']) so := by
      simp [procLoop, hwr]
    simp only [List.map_cons]
    have harith : c + 1 + ls.length = c + (ls.length + 1) := by omega
    rw [hstep, ih rest (c + 1) (fs ++ l ++ ['\n']) so, harith]
    simp [joinNL, List.append_assoc]

theorem procLoop_file_fail {wr : Nat → Option GoErr} {e : GoErr} :
    ∀ (lines : List Line) (k : Nat) (rest : List Ev) (c : Nat) (fs so : List Char),
      k < lines.length →
      (∀ j, j < k → wr (c + j) = none) →
      wr (c + k) = some e →
      procLoop true wr (lines.map Ev.line ++ rest) c fs so =
        some ⟨c + k + 1, fs ++ joinNL (lines.take k), so, some e⟩ := by
  intro lines
  induction lines with
  | nil => intro k rest c fs so hk; exact absurd hk (by simp)
  | cons l ls ih =>
    intro k rest c fs so hk hok hf
    cases k with
    | zero =>
      have hf0 : wr c = some e := by simpa using hf
      simp [procLoop, hf0, joinNL]
    | succ k =>
      have h0 : wr c = none := by
        have := hok 0 (Nat.succ_pos k)
        simpa using this
      have hok' : ∀ j, j < k → wr (c + 1 + j) = none := by
        intro j hj
        have := hok (j + 1) (Nat.succ_lt_succ hj)
        simpa [Nat.add_assoc, Nat.add_comm 1 j] using this
      have hf' : wr (c + 1 + k) = some e := by
        have : c + 1 + k = c + (k + 1) := by omega
        rw [this]; exact hf
      have hstep : procLoop true wr ((Ev.line l :: ls.map Ev.line) ++ rest) c fs so
          = procLoop true wr (ls.map Ev.line ++ rest) (c + 1) (fs ++ l ++ ['\n']) so := by
        simp [procLoop, h0]
      simp only [List.map_cons]
      have harith : c + 1 + k + 1 = c + (k + 1) + 1 := by omega
      rw [hstep, ih k rest (c + 1) (fs ++ l ++ ['\n']) so (Nat.lt_of_succ_lt_succ hk)
        hok' hf', harith]
      simp [joinNL, List.take_succ_cons, List.append_assoc]

theorem procLoop_eof_closed (toFile : Bool) (wr : Nat → Option GoErr) :
    ∀ (lines : List Line) (c : Nat) (fs so : List Char),
      procLoop toFile wr (lines.map Ev.line ++ [Ev.errVal GoErr.eof]) c fs so =
        procLoop toFile wr (lines.map Ev.line ++ [Ev.lineClosed]) c fs so := by
  intro lines
  induction lines with
  | nil => intro c fs so; simp [procLoop]
  | cons l ls ih =>
    intro c fs so
    cases toFile with
    | false =>
      simp only [List.map_cons, List.cons_append, procLoop]
      exact ih (c + 1) fs (so ++ l ++ ['\n'])
    | true =>
      simp only [List.map_cons, List.cons_append, procLoop]
      cases wr c with
      | some e => rfl
      | none => exact ih (c + 1) (fs ++ l ++ ['\n']) so

/-! ## Claim C1 (partial-failure accounting of `ProcessLines`) -/

/-- C1, counterexample.  The claim says that when the write of the k-th
received line fails, `ProcessLines` returns count `k - 1`.  In the code
(client.go lines 53-60) `lineCount++` happens before the `WriteString` call
and the failing branch returns the already incremented `lineCount`, so for
`k = 1` (first line's write fails) the returned count is `1`, not `0`. -/
theorem ProcessLines_write_fail_counterexample :
    ProcessLines "out.txt" true (fun _ => some (GoErr.ioErr 7))
        [Ev.line ['a'], Ev.lineClosed] =
      some ⟨1, [], [], some (GoErr.ioErr 7)⟩ ∧
    ProcessLines "out.txt" true (fun _ => some (GoErr.ioErr 7))
        [Ev.line ['a'], Ev.lineClosed] ≠
      some ⟨0, [], [], some (GoErr.ioErr 7)⟩ := by
  constructor <;> decide

/-- C1, amended: for every run of `ProcessLines` in which the write of the
k-th received line (0-based index `k` here, so the (k+1)-st line in the
claim's 1-based counting) fails with error `e`, `ProcessLines` returns line
count `k + 1` — the failing line is counted — together with the write error,
and the `k` lines already written remain intact in the sink (no rollback):
the file sink holds exactly the earlier lines, each with its newline. -/
theorem ProcessLines_write_fail (out : String) (wr : Nat → Option GoErr)
    (lines : List Line) (rest : List Ev) (k : Nat) (e : GoErr)
    (hout : out ≠ "") (hk : k < lines.length)
    (hok : ∀ j, j < k → wr j = none) (hf : wr k = some e) :
    ProcessLines out true wr (lines.map Ev.line ++ rest) =
      some ⟨k + 1, joinNL (lines.take k), [], some e⟩ := by
  unfold ProcessLines
  simp only [if_neg hout, if_pos rfl]
  have h := procLoop_file_fail lines k rest 0 [] [] hk
    (fun j hj => by simpa using hok j hj) (by simpa using hf)
  simpa using h

/-- C1, witness: three lines, the write of the second received line fails;
the returned count is 2, the error is returned, and the first line is intact
in the sink. -/
theorem ProcessLines_write_fail_witness :
    ProcessLines "o" true (fun j => if j = 1 then some (GoErr.ioErr 5) else none)
        ([['a'], ['b'], ['c']].map Ev.line ++ [Ev.lineClosed]) =
      some ⟨2, ['a', '\n'], [], some (GoErr.ioErr 5)⟩ :=
  ProcessLines_write_fail "o" _ [['a'], ['b'], ['c']] [Ev.lineClosed] 1
    (GoErr.ioErr 5) (by decide) (by decide)
    (fun j hj => by
      have hj0 : j = 0 := Nat.lt_one_iff.mp hj
      subst hj0
      rfl)
    rfl

/-! ## Claim C5 (end-of-stream sentinel equivalence) -/

/-- C5: a source that delivers the given lines and then sends `io.EOF` on
the error stream gives exactly the same `ProcessLines` result as a source
that delivers the lines and then cleanly closes the line stream — and when
the sink works, that common result is count `M = lines.length`, error `nil`,
with every line followed by one newline in the sink. -/
theorem ProcessLines_eof_equiv (output : String) (createOk : Bool)
    (wr : Nat → Option GoErr) (lines : List Line) :
    ProcessLines output createOk wr (lines.map Ev.line ++ [Ev.errVal GoErr.eof]) =
      ProcessLines output createOk wr (lines.map Ev.line ++ [Ev.lineClosed]) ∧
    ((output = "" ∨ createOk = true) → (∀ j, wr j = none) →
      ProcessLines output createOk wr (lines.map Ev.line ++ [Ev.errVal GoErr.eof]) =
        some ⟨lines.length, if output = "" then [] else joinNL lines,
          if output = "" then joinNL lines else [], none⟩) := by
  constructor
  · unfold ProcessLines
    split
    · exact procLoop_eof_closed false wr lines 0 [] []
    · split
      · exact procLoop_eof_closed true wr lines 0 [] []
      · rfl
  · intro hok hwr
    unfold ProcessLines
    by_cases ho : output = ""
    · simp only [if_pos ho]
      rw [procLoop_stdout_lines wr lines [Ev.errVal GoErr.eof] 0 [] []]
      simp [procLoop, ho]
    · have hck : createOk = true := hok.resolve_left ho
      simp only [if_neg ho, hck, if_pos rfl]
      rw [procLoop_file_lines hwr lines [Ev.errVal GoErr.eof] 0 [] []]
      simp [procLoop, ho]

/-- C5, witness: two lines then `io.EOF` is indistinguishable from two lines
then a clean close, and the result is count 2, no error. -/
theorem ProcessLines_eof_equiv_witness :
    ProcessLines "" true (fun _ => none)
        ([['a'], ['b']].map Ev.line ++ [Ev.errVal GoErr.eof]) =
      ProcessLines "" true (fun _ => none)
        ([['a'], ['b']].map Ev.line ++ [Ev.lineClosed]) ∧
    ProcessLines "" true (fun _ => none)
        ([['a'], ['b']].map Ev.line ++ [Ev.errVal GoErr.eof]) =
      some ⟨2, [], ['a', '\n', 'b', '\n'], none⟩ :=
  ⟨(ProcessLines_eof_equiv "" true (fun _ => none) [['a'], ['b']]).1,
   (ProcessLines_eof_equiv "" true (fun _ => none) [['a'], ['b']]).2
     (Or.inl rfl) (fun _ => rfl)⟩

/-! ## Claim C6 (sink resolution of `ProcessLines`) -/

/-- C6: an empty sink path writes the received lines to standard output (and
touches no file); a non-empty path with a successful create writes them to
the created file; and when creation fails (e.g. the path is a directory),
`ProcessLines` returns the IO error with line count zero, without consuming
any event of the source and with both sinks empty (no partial state). -/
theorem ProcessLines_sink_resolution (out : String) (createOk : Bool)
    (wr : Nat → Option GoErr) (lines : List Line) (trace : List Ev) :
    (ProcessLines "" createOk wr (lines.map Ev.line ++ [Ev.lineClosed]) =
        some ⟨lines.length, [], joinNL lines, none⟩) ∧
    (out ≠ "" → (∀ j, wr j = none) →
      ProcessLines out true wr (lines.map Ev.line ++ [Ev.lineClosed]) =
        some ⟨lines.length, joinNL lines, [], none⟩) ∧
    (out ≠ "" → ProcessLines out false wr trace =
        some ⟨0, [], [], some GoErr.createErr⟩) := by
  refine ⟨?_, ?_, ?_⟩
  · unfold ProcessLines
    simp only [if_pos rfl]
    rw [procLoop_stdout_lines wr lines [Ev.lineClosed] 0 [] []]
    simp [procLoop]
  · intro ho hwr
    unfold ProcessLines
    simp only [if_neg ho, if_pos rfl]
    rw [procLoop_file_lines hwr lines [Ev.lineClosed] 0 [] []]
    simp [procLoop]
  · intro ho
    unfold ProcessLines
    simp [ho]

/-- C6, witness: stdout sink for an empty path, file sink for path `"d"`,
and the create-failure case returns `(0, createErr)` untouched. -/
theorem ProcessLines_sink_resolution_witness :
    (ProcessLines "" true (fun _ => none)
        ([['a']].map Ev.line ++ [Ev.lineClosed]) =
      some ⟨1, [], ['a', '\n'], none⟩) ∧
    (ProcessLines "d" true (fun _ => none)
        ([['a']].map Ev.line ++ [Ev.lineClosed]) =
      some ⟨1, ['a', '\n'], [], none⟩) ∧
    (ProcessLines "d" false (fun _ => none) [Ev.line ['a']] =
      some ⟨0, [], [], some GoErr.createErr⟩) :=
  ⟨(ProcessLines_sink_resolution "d" true (fun _ => none) [['a']]
      [Ev.line ['a']]).1,
   (ProcessLines_sink_resolution "d" true (fun _ => none) [['a']]
      [Ev.line ['a']]).2.1 (by decide) (fun _ => rfl),
   (ProcessLines_sink_resolution "d" true (fun _ => none) [['a']]
      [Ev.line ['a']]).2.2 (by decide)⟩

/-! ## Claim C7 (send failure stops `StreamFile`) -/

/-- C7: for every file and every writer whose send primitive fails on the
line with 0-based index `k` (the claim's k-th line in 1-based counting, with
`k-1` earlier lines), `StreamFile` stops immediately and returns that send
error, and exactly the earlier lines were delivered to the writer, in file
order; the failing line and all later lines are never delivered and no
already-sent line is retried or rolled back (the result lists each delivered
line exactly once). -/
theorem StreamFile_send_fail (send : Nat → Line → Option GoErr)
    (content : List Char) (k : Nat) (e : GoErr)
    (hk : k < (fileTokens content).length)
    (hok : ∀ j t, j < k → send j t = none)
    (hf : send k ((fileTokens content).get ⟨k, hk⟩) = some e) :
    StreamFile send (some content) =
      ⟨(fileTokens content).take k, some e, false⟩ := by
  have h := @streamLoop_fail send e (scanSegs (rawSegs content)).2
    (fileTokens content) k 0 [] hk (fun j t hj => by simpa using hok j t hj)
    (by simpa using hf)
  simp only [fileTokens] at h
  simp only [StreamFile, StreamFileP]
  rw [h]
  simp [fileTokens]

/-- C7, witness: a three-line file whose writer rejects the second line:
only the first line is delivered and the send error is returned. -/
theorem StreamFile_send_fail_witness :
    StreamFile (fun j _ => if j = 1 then some (GoErr.ioErr 3) else none)
        (some ['a', '\n', 'b', '\n', 'c', '\n']) =
      ⟨[['a']], some (GoErr.ioErr 3), false⟩ :=
  StreamFile_send_fail (fun j _ => if j = 1 then some (GoErr.ioErr 3) else none)
    ['a', '\n', 'b', '\n', 'c', '\n'] 1 (GoErr.ioErr 3) (by decide)
    (fun j t hj => by
      have hj0 : j = 0 := Nat.lt_one_iff.mp hj
      subst hj0
      rfl)
    rfl

/-! ## Claim C9 (the scanner's 64 KiB line-length limit) -/

/-- C9: `StreamFile` inherits `bufio.Scanner`'s default maximum token size of
65536 bytes.  For any file containing a line longer than that, scanning stops
at the first line that does not fit, lines from there on (in particular every
oversized line) are never sent even over a perfectly working writer, and
`StreamFile` returns a non-nil scan error (`bufio.ErrTooLong`); every line
that was sent is shorter than the limit. -/
theorem StreamFile_line_limit (content : List Char)
    (h : ∃ s ∈ rawSegs content, maxScanTokenSize < s.length) :
    StreamFile (fun _ _ => none) (some content) =
      ⟨((rawSegs content).takeWhile fun s =>
          decide (s.length < maxScanTokenSize)).map dropCR,
        some GoErr.tooLong, false⟩ ∧
    ∀ l ∈ (StreamFile (fun _ _ => none) (some content)).delivered,
      l.length < maxScanTokenSize := by
  obtain ⟨s, hs, hl⟩ := h
  have hscan := @scanSegs_too_long (rawSegs content) ⟨s, hs, Nat.le_of_lt hl⟩
  have heq : StreamFile (fun _ _ => none) (some content) =
      ⟨((rawSegs content).takeWhile fun s =>
          decide (s.length < maxScanTokenSize)).map dropCR,
        some GoErr.tooLong, false⟩ := by
    simp only [StreamFile, StreamFileP, hscan]
    rw [streamLoop_ok (fun _ _ => rfl) true _ 0 []]
    simp
  refine ⟨heq, ?_⟩
  rw [heq]
  intro l hlmem
  simp only [List.mem_map] at hlmem
  obtain ⟨t, ht, rfl⟩ := hlmem
  have hp := List.mem_takeWhile_imp ht
  simp only [decide_eq_true_eq] at hp
  exact Nat.lt_of_le_of_lt (dropCR_length_le t) hp

/-- C9, witness: a file consisting of one 65537-character line produces the
scan error with nothing delivered. -/
theorem StreamFile_line_limit_witness :
    StreamFile (fun _ _ => none) (some (List.replicate 65537 'a')) =
      ⟨((rawSegs (List.replicate 65537 'a')).takeWhile fun s =>
          decide (s.length < maxScanTokenSize)).map dropCR,
        some GoErr.tooLong, false⟩ ∧
    (rawSegs (List.replicate 65537 'a')).takeWhile
        (fun s => decide (s.length < maxScanTokenSize)) = [] := by
  have hlen : (List.replicate 65537 'a').length = 65537 :=
    List.length_replicate 65537 'a'
  have hne : List.replicate 65537 'a' ≠ [] := by
    intro hnil
    rw [hnil] at hlen
    exact absurd hlen (by decide)
  have hseg : rawSegs (List.replicate 65537 'a') = [List.replicate 65537 'a'] :=
    rawSegs_no_nl
      (by
        intro hmem
        have := (List.mem_replicate.mp hmem).2
        exact absurd this (by decide))
      hne
  have hgt : maxScanTokenSize < (List.replicate 65537 'a').length := by
    rw [hlen]
    decide
  have hbig : ∃ s ∈ rawSegs (List.replicate 65537 'a'),
      maxScanTokenSize < s.length := by
    rw [hseg]
    exact ⟨List.replicate 65537 'a', List.mem_singleton.mpr rfl, hgt⟩
  have hpf : decide ((List.replicate 65537 'a').length < maxScanTokenSize)
      = false := by
    rw [hlen]
    decide
  refine ⟨(StreamFile_line_limit (List.replicate 65537 'a') hbig).1, ?_⟩
  rw [hseg, List.takeWhile_cons]
  simp only [hpf]
  rfl

/-! ## Claim C3 (panic recovery in `StreamFile`) -/

/-- C3, counterexample.  The claim says a panic during scanning is both
recovered (no crash) and surfaced as a non-nil returned error.  The deferred
`recover()` in server.go lines 14-18 only logs the panic; `StreamFile` then
returns the zero value `nil` for its `error` result, so for a fault injected
at the first scan iteration of a one-line file the returned error is `none`
and the claimed conjunction is false. -/
theorem StreamFile_recover_counterexample :
    ¬ ((StreamFileP (fun _ _ => none) (some ['a']) (some 0)).crashed = false ∧
       (StreamFileP (fun _ _ => none) (some ['a']) (some 0)).ret ≠ none) := by
  decide

/-- C3, amended: an unexpected fault (panic) during scanning never propagates
to `StreamFile`'s caller as a crash — but it is not surfaced either: the
recovered call returns the lines delivered before the fault and a `nil`
error, the fault being reported only through logging. -/
theorem StreamFileP_recover (send : Nat → Line → Option GoErr)
    (content : List Char) (i : Nat)
    (hi : i < (fileTokens content).length)
    (hok : ∀ j t, j < i → send j t = none) :
    (∀ file panicAt, (StreamFileP send file panicAt).crashed = false) ∧
    StreamFileP send (some content) (some i) =
      ⟨(fileTokens content).take i, none, false⟩ := by
  constructor
  · intro file p
    cases file with
    | none => rfl
    | some c =>
      cases hres : streamLoop send p (scanSegs (rawSegs c)).2
          (scanSegs (rawSegs c)).1 0 [] with
      | done d r => simp [StreamFileP, hres]
      | panicked d => simp [StreamFileP, hres]
  · have h := @streamLoop_panic send (scanSegs (rawSegs content)).2
      (fileTokens content) i 0 [] (by simpa [fileTokens] using hi)
      (fun j t hj => by simpa using hok j t hj)
    rw [Nat.zero_add] at h
    simp only [fileTokens] at h
    simp only [StreamFileP]
    rw [h]
    simp [fileTokens]

/-- C3, witness: no `StreamFileP` run crashes, and a fault injected at the
second line of a two-line file yields the first line delivered and a `nil`
returned error. -/
theorem StreamFileP_recover_witness :
    (StreamFileP (fun _ _ => none) (some ['x']) none).crashed = false ∧
    StreamFileP (fun _ _ => none) (some ['a', '\n', 'b']) (some 1) =
      ⟨[['a']], none, false⟩ :=
  ⟨(StreamFileP_recover (fun _ _ => none) ['a', '\n', 'b'] 1 (by decide)
      (fun _ _ _ => rfl)).1 (some ['x']) none,
   (StreamFileP_recover (fun _ _ => none) ['a', '\n', 'b'] 1 (by decide)
      (fun _ _ _ => rfl)).2⟩

/-! ## Claim C2 (order and completeness of a whole transfer) -/

/-- C2, counterexample.  The claim quantifies over every file, but
`StreamFile`'s scanner refuses lines that do not fit its maximal 64 KiB
buffer: for a file consisting of one 65537-character line (N = 1 line), the
server sends nothing, the data channel then closes, and `ProcessLines`
returns count 0 with an empty sink — not count 1 with the line in the
sink. -/
theorem streamInto_counterexample :
    (rawSegs (List.replicate 65537 'a')).length = 1 ∧
    streamInto (List.replicate 65537 'a') "" true (fun _ => none) =
      some ⟨0, [], [], none⟩ ∧
    streamInto (List.replicate 65537 'a') "" true (fun _ => none) ≠
      some ⟨(rawSegs (List.replicate 65537 'a')).length, [],
        joinNL (rawSegs (List.replicate 65537 'a')), none⟩ := by
  have hlen : (List.replicate 65537 'a').length = 65537 :=
    List.length_replicate 65537 'a'
  have hne : List.replicate 65537 'a' ≠ [] := by
    intro hnil
    rw [hnil] at hlen
    exact absurd hlen (by decide)
  have hseg : rawSegs (List.replicate 65537 'a') = [List.replicate 65537 'a'] :=
    rawSegs_no_nl
      (by
        intro hmem
        have := (List.mem_replicate.mp hmem).2
        exact absurd this (by decide))
      hne
  have hge : maxScanTokenSize ≤ (List.replicate 65537 'a').length := by
    rw [hlen]
    decide
  have hsc : scanSegs (rawSegs (List.replicate 65537 'a')) = ([], true) := by
    rw [hseg]
    simp only [scanSegs]
    rw [if_pos hge]
  have hsf : StreamFile (fun _ _ => none) (some (List.replicate 65537 'a')) =
      ⟨[], some GoErr.tooLong, false⟩ := by
    rw [StreamFile_ok_of_scan (fun _ _ => rfl) (List.replicate 65537 'a'), hsc]
    rfl
  have hrun : streamInto (List.replicate 65537 'a') "" true (fun _ => none) =
      some ⟨0, [], [], none⟩ := by
    simp only [streamInto]
    rw [hsf]
    rfl
  refine ⟨by rw [hseg]; rfl, hrun, ?_⟩
  rw [hrun, hseg]
  intro hcontra
  have hc := congrArg ProcRes.count (Option.some.inj hcontra)
  rw [List.length_singleton] at hc
  exact absurd hc (by decide)

/-- C2, amended: for every file whose lines (maximal newline-free segments,
with a trailing partial line counting as a line) are each shorter than the
scanner's 65536-byte limit and none of which ends in a carriage return (CR
stripping is covered separately), and any delay — the delay changes timing
only, never the data — streaming the file with `StreamFile` into
`ProcessLines` yields sink content equal to exactly the N input lines in
original file order, each followed by exactly one newline character, and
`ProcessLines` returns count N with no error. -/
theorem streamInto_lines (content : List Char) (output : String)
    (createOk : Bool) (wr : Nat → Option GoErr)
    (hseg : ∀ s ∈ rawSegs content,
      s.length < maxScanTokenSize ∧ s.getLast? ≠ some '\r')
    (hout : output = "" ∨ createOk = true)
    (hwr : ∀ j, wr j = none) :
    streamInto content output createOk wr =
      some ⟨(rawSegs content).length,
        if output = "" then [] else joinNL (rawSegs content),
        if output = "" then joinNL (rawSegs content) else [], none⟩ := by
  have hsmall : ∀ s ∈ rawSegs content, s.length < maxScanTokenSize :=
    fun s hs => (hseg s hs).1
  have hscan := scanSegs_all_small hsmall
  have hmap : (rawSegs content).map dropCR = rawSegs content := by
    have h1 : (rawSegs content).map dropCR = (rawSegs content).map id :=
      List.map_congr_left fun s hs => dropCR_no_cr (hseg s hs).2
    rw [h1, List.map_id]
  have hsf : StreamFile (fun _ _ => none) (some content) =
      ⟨rawSegs content, none, false⟩ := by
    simp only [StreamFile, StreamFileP, hscan]
    rw [streamLoop_ok (fun _ _ => rfl) false _ 0 []]
    simp [hmap]
  simp only [streamInto]
  rw [hsf]
  unfold ProcessLines
  by_cases ho : output = ""
  · simp only [if_pos ho]
    rw [procLoop_stdout_lines wr (rawSegs content) [Ev.lineClosed] 0 [] []]
    simp [procLoop, ho]
  · have hc : createOk = true := hout.resolve_left ho
    simp only [if_neg ho, hc, if_pos rfl]
    rw [procLoop_file_lines hwr (rawSegs content) [Ev.lineClosed] 0 [] []]
    simp [procLoop, ho]

/-- C2, witness: the spec's concrete scenario — a three-line file is
reproduced exactly on the client's sink and counted as 3 lines with no
error. -/
theorem streamInto_lines_witness :
    streamInto ("Line 1\nLine 2\nLine 3\n".toList) "" true (fun _ => none) =
      some ⟨(rawSegs "Line 1\nLine 2\nLine 3\n".toList).length, [],
        joinNL (rawSegs "Line 1\nLine 2\nLine 3\n".toList), none⟩ ∧
    (rawSegs "Line 1\nLine 2\nLine 3\n".toList).length = 3 ∧
    joinNL (rawSegs "Line 1\nLine 2\nLine 3\n".toList) =
      "Line 1\nLine 2\nLine 3\n".toList :=
  ⟨by
    simpa using
      streamInto_lines ("Line 1\nLine 2\nLine 3\n".toList) "" true
        (fun _ => none) (by decide) (Or.inl rfl) (fun _ => rfl),
   by decide, by decide⟩

/-! ## Claim C10 (CRLF normalisation) -/

/-- A file whose every line is terminated by a carriage return plus newline
(CRLF). -/
def crlfFile : List Line → List Char
  | [] => []
  | l :: ls => l ++ '\r' :: '\n' :: crlfFile ls

theorem rawSegs_crlfFile :
    ∀ lines : List Line, (∀ l ∈ lines, '\n' ∉ l) →
      rawSegs (crlfFile lines) = lines.map (fun l => l ++ ['\r']) := by
  intro lines
  induction lines with
  | nil => intro _; rfl
  | cons l ls ih =>
    intro h
    have hl : '\n' ∉ l := h l (List.mem_cons_self l ls)
    have hls : ∀ u ∈ ls, '\n' ∉ u := fun u hu => h u (List.mem_cons_of_mem l hu)
    have hstep := rawSegsAux_no_nl hl ('\r' :: '\n' :: crlfFile ls) []
    unfold rawSegs crlfFile
    rw [hstep]
    simp only [List.nil_append, rawSegsAux, if_neg (by decide : ¬('\r' = '\n')),
      if_pos rfl]
    rw [← rawSegs]
    rw [ih hls]
    simp

/-- C10: for every CRLF-terminated input file (each line free of newlines,
not itself ending in CR, and short enough for the scanner), `StreamFile`
strips both the newline and the trailing carriage return before sending —
the delivered lines are exactly the bare lines — and `ProcessLines` appends
a bare `'\n'` when writing, so the file is reproduced in the sink with
LF-only line endings and no carriage return at any line boundary. -/
theorem streamInto_crlf (lines : List Line)
    (h : ∀ l ∈ lines, '\n' ∉ l ∧ l.getLast? ≠ some '\r' ∧
      l.length + 1 < maxScanTokenSize) :
    (StreamFile (fun _ _ => none) (some (crlfFile lines))).delivered = lines ∧
    streamInto (crlfFile lines) "" true (fun _ => none) =
      some ⟨lines.length, [], joinNL lines, none⟩ := by
  have hsegs : rawSegs (crlfFile lines) = lines.map (fun l => l ++ ['\r']) :=
    rawSegs_crlfFile lines fun l hl => (h l hl).1
  have hsmall : ∀ s ∈ rawSegs (crlfFile lines), s.length < maxScanTokenSize := by
    rw [hsegs]
    intro s hs
    obtain ⟨l, hl, rfl⟩ := List.mem_map.mp hs
    have := (h l hl).2.2
    simpa using this
  have hscan := scanSegs_all_small hsmall
  have hmap : (rawSegs (crlfFile lines)).map dropCR = lines := by
    rw [hsegs, List.map_map]
    have h1 : lines.map (dropCR ∘ fun l => l ++ ['\r']) = lines.map id :=
      List.map_congr_left fun l _ => dropCR_concat l
    rw [h1, List.map_id]
  have hsf : StreamFile (fun _ _ => none) (some (crlfFile lines)) =
      ⟨lines, none, false⟩ := by
    simp only [StreamFile, StreamFileP, hscan]
    rw [streamLoop_ok (fun _ _ => rfl) false _ 0 []]
    simp [hmap]
  refine ⟨by rw [hsf], ?_⟩
  simp only [streamInto]
  rw [hsf]
  unfold ProcessLines
  simp only [if_pos rfl]
  rw [procLoop_stdout_lines (fun _ => none) lines [Ev.lineClosed] 0 [] []]
  simp [procLoop]

/-- C10, witness: the CRLF file `"x\r\ny\r\n"` is delivered as the bare
lines and reproduced with LF-only endings. -/
theorem streamInto_crlf_witness :
    (StreamFile (fun _ _ => none) (some (crlfFile [['x'], ['y']]))).delivered =
      [['x'], ['y']] ∧
    streamInto (crlfFile [['x'], ['y']]) "" true (fun _ => none) =
      some ⟨2, [], ['x', '\n', 'y', '\n'], none⟩ :=
  streamInto_crlf [['x'], ['y']] (by decide)

/-! ## The `/offer` HTTP handler (cmd/webrtc-poc/main.go lines 185-295) -/

/-- A session description: `{Type, SDP}` of `webrtc.SessionDescription`. -/
structure SessionDescription where
  sdpType : String
  sdp : String
deriving DecidableEq

/-- Model of the JSON encoding of the answer written on the 200 path
(`json.NewEncoder(w).Encode(answer)`); any lossless encoding works for the
properties proved here. -/
def serializeSD (sd : SessionDescription) : String :=
  "type=" ++ sd.sdpType ++ ";sdp=" ++ sd.sdp

/-- An HTTP response as the handler produces it: the status code and the
response body (for error paths, the `http.Error` text with its trailing
newline). -/
structure HttpResp where
  status : Nat
  body : String
deriving DecidableEq

/-- Outcomes of the externally-effected steps the handler performs after the
method check, in program order: the `json.Unmarshal` of the body, then
`api.NewPeerConnection`, `SetRemoteDescription`, `CreateDataChannel`,
`CreateAnswer`, `SetLocalDescription` (`none` = the call succeeded, `some e`
= it failed with error text `e`), and finally the gathered local description
returned on success. -/
structure NegEnv where
  parseRes : Except String SessionDescription
  newPC : Option String
  setRemote : Option String
  createDC : Option String
  createAnswer : Option String
  setLocal : Option String
  finalAnswer : SessionDescription

/-- The `/offer` handler (main.go lines 185-295).  `method` is `r.Method`;
`bodyRead` is the outcome of `io.ReadAll(r.Body)`.  A non-POST method gets
status 405 (`http.StatusMethodNotAllowed`); a body-read or parse failure
gets 400 with the error text; a failure of any negotiation step after
parsing gets 500 with that step's error text; on success the serialized
answer is returned with status 200. -/
def offerHandler (method : String) (bodyRead : Except String String)
    (env : NegEnv) : HttpResp :=
  if method = "POST" then
    match bodyRead with
    | Except.error e => ⟨400, "Failed to read offer: " ++ e ++ "\n"⟩
    | Except.ok _ =>
      match env.parseRes with
      | Except.error e => ⟨400, "Failed to parse offer: " ++ e ++ "\n"⟩
      | Except.ok _ =>
        match env.newPC with
        | some e => ⟨500, "Failed to create peer connection: " ++ e ++ "\n"⟩
        | none =>
          match env.setRemote with
          | some e => ⟨500, "Failed to set remote description: " ++ e ++ "\n"⟩
          | none =>
            match env.createDC with
            | some e => ⟨500, "Failed to create data channel: " ++ e ++ "\n"⟩
            | none =>
              match env.createAnswer with
              | some e => ⟨500, "Failed to create answer: " ++ e ++ "\n"⟩
              | none =>
                match env.setLocal with
                | some e =>
                  ⟨500, "Failed to set local description: " ++ e ++ "\n"⟩
                | none => ⟨200, serializeSD env.finalAnswer⟩
  else ⟨405, "Method not allowed\n"⟩

/-! ## Claim C4 (status codes of the `/offer` endpoint) -/

/-- C4, counterexample.  The claim says a non-POST request is answered with
status 400, but the handler calls
`http.Error(w, "Method not allowed", http.StatusMethodNotAllowed)`
(main.go line 187), i.e. status 405: a GET request gets 405, not 400. -/
theorem offerHandler_counterexample :
    offerHandler "GET" (Except.ok "x")
        ⟨Except.ok ⟨"offer", "s"⟩, none, none, none, none, none,
          ⟨"answer", "t"⟩⟩ =
      ⟨405, "Method not allowed\n"⟩ ∧
    (offerHandler "GET" (Except.ok "x")
        ⟨Except.ok ⟨"offer", "s"⟩, none, none, none, none, none,
          ⟨"answer", "t"⟩⟩).status ≠ 400 := by
  constructor <;> decide

/-- C4, amended: for every request to `/offer`, the response is 200 with the
serialized answer when every step succeeds; 405 (method not allowed) — not
400 — when the method is not POST; 400 with the error text when the body
cannot be read or parsed; and 500 with a human-readable error string when a
negotiation step after parsing fails (the first failing step in program
order determines the message). -/
theorem offerHandler_status (method : String) (bodyRead : Except String String)
    (env : NegEnv) :
    (method ≠ "POST" →
      offerHandler method bodyRead env = ⟨405, "Method not allowed\n"⟩) ∧
    (∀ e, method = "POST" → bodyRead = Except.error e →
      offerHandler method bodyRead env =
        ⟨400, "Failed to read offer: " ++ e ++ "\n"⟩) ∧
    (∀ b e, method = "POST" → bodyRead = Except.ok b →
      env.parseRes = Except.error e →
      offerHandler method bodyRead env =
        ⟨400, "Failed to parse offer: " ++ e ++ "\n"⟩) ∧
    (∀ b sd e, method = "POST" → bodyRead = Except.ok b →
      env.parseRes = Except.ok sd → env.newPC = some e →
      offerHandler method bodyRead env =
        ⟨500, "Failed to create peer connection: " ++ e ++ "\n"⟩) ∧
    (∀ b sd e, method = "POST" → bodyRead = Except.ok b →
      env.parseRes = Except.ok sd → env.newPC = none → env.setRemote = some e →
      offerHandler method bodyRead env =
        ⟨500, "Failed to set remote description: " ++ e ++ "\n"⟩) ∧
    (∀ b sd e, method = "POST" → bodyRead = Except.ok b →
      env.parseRes = Except.ok sd → env.newPC = none → env.setRemote = none →
      env.createDC = some e →
      offerHandler method bodyRead env =
        ⟨500, "Failed to create data channel: " ++ e ++ "\n"⟩) ∧
    (∀ b sd e, method = "POST" → bodyRead = Except.ok b →
      env.parseRes = Except.ok sd → env.newPC = none → env.setRemote = none →
      env.createDC = none → env.createAnswer = some e →
      offerHandler method bodyRead env =
        ⟨500, "Failed to create answer: " ++ e ++ "\n"⟩) ∧
    (∀ b sd e, method = "POST" → bodyRead = Except.ok b →
      env.parseRes = Except.ok sd → env.newPC = none → env.setRemote = none →
      env.createDC = none → env.createAnswer = none → env.setLocal = some e →
      offerHandler method bodyRead env =
        ⟨500, "Failed to set local description: " ++ e ++ "\n"⟩) ∧
    (∀ b sd, method = "POST" → bodyRead = Except.ok b →
      env.parseRes = Except.ok sd → env.newPC = none → env.setRemote = none →
      env.createDC = none → env.createAnswer = none → env.setLocal = none →
      offerHandler method bodyRead env =
        ⟨200, serializeSD env.finalAnswer⟩) := by
  refine ⟨?_, ?_, ?_, ?_, ?_, ?_, ?_, ?_, ?_⟩
  · intro hm
    simp [offerHandler, hm]
  · intro e hm hb
    subst hm hb
    simp [offerHandler]
  · intro b e hm hb hp
    subst hm hb
    simp [offerHandler, hp]
  · intro b sd e hm hb hp h1
    subst hm hb
    simp [offerHandler, hp, h1]
  · intro b sd e hm hb hp h1 h2
    subst hm hb
    simp [offerHandler, hp, h1, h2]
  · intro b sd e hm hb hp h1 h2 h3
    subst hm hb
    simp [offerHandler, hp, h1, h2, h3]
  · intro b sd e hm hb hp h1 h2 h3 h4
    subst hm hb
    simp [offerHandler, hp, h1, h2, h3, h4]
  · intro b sd e hm hb hp h1 h2 h3 h4 h5
    subst hm hb
    simp [offerHandler, hp, h1, h2, h3, h4, h5]
  · intro b sd hm hb hp h1 h2 h3 h4 h5
    subst hm hb
    simp [offerHandler, hp, h1, h2, h3, h4, h5]

/-- C4, witness: a GET request gets 405; a POST whose remote-description
application fails gets 500 with the error text; a fully successful POST gets
200 with the serialized answer. -/
theorem offerHandler_status_witness :
    offerHandler "GET" (Except.ok "x")
        ⟨Except.ok ⟨"offer", "s"⟩, none, none, none, none, none,
          ⟨"answer", "t"⟩⟩ = ⟨405, "Method not allowed\n"⟩ ∧
    offerHandler "POST" (Except.ok "x")
        ⟨Except.ok ⟨"offer", "s"⟩, none, some "boom", none, none, none,
          ⟨"answer", "t"⟩⟩ =
      ⟨500, "Failed to set remote description: boom\n"⟩ ∧
    offerHandler "POST" (Except.ok "x")
        ⟨Except.ok ⟨"offer", "s"⟩, none, none, none, none, none,
          ⟨"answer", "t"⟩⟩ = ⟨200, "type=answer;sdp=t"⟩ :=
  ⟨(offerHandler_status "GET" (Except.ok "x")
      ⟨Except.ok ⟨"offer", "s"⟩, none, none, none, none, none,
        ⟨"answer", "t"⟩⟩).1 (by decide),
   (offerHandler_status "POST" (Except.ok "x")
      ⟨Except.ok ⟨"offer", "s"⟩, none, some "boom", none, none, none,
        ⟨"answer", "t"⟩⟩).2.2.2.2.1 "x" ⟨"offer", "s"⟩ "boom" rfl rfl rfl rfl
     rfl,
   (offerHandler_status "POST" (Except.ok "x")
      ⟨Except.ok ⟨"offer", "s"⟩, none, none, none, none, none,
        ⟨"answer", "t"⟩⟩).2.2.2.2.2.2.2.2 "x" ⟨"offer", "s"⟩ rfl rfl rfl rfl
     rfl rfl rfl rfl⟩

/-! ## Shutdown coordination of `runServer`
(cmd/webrtc-poc/main.go lines 177-319) -/

/-- Lifecycle phase of the server process: serving requests (`running`,
before the shutdown signal), draining (`draining`, after `<-shutdown` and
`server.Close()`, while `wg.Wait()` blocks), and exited (`stopped`, after
`wg.Wait()` returned and `runServer` returns). -/
inductive Phase
  | running
  | draining
  | stopped
deriving DecidableEq

/-- Observable state of `runServer`: the lifecycle phase, whether the HTTP
listener still accepts signaling requests, and the value of the session
wait-group counter (`wg`), i.e. the number of registered in-flight streaming
goroutines. -/
structure SrvState where
  phase : Phase
  listenerOpen : Bool
  active : Nat
deriving DecidableEq

/-- The initial state of `runServer`: listener up, no session yet. -/
def srvInit : SrvState := ⟨Phase.running, true, 0⟩

/-- Transitions of `runServer`'s lifecycle, transcribed from main.go:
`openSession` is `wg.Add(1)` in the data channel's `OnOpen` callback (line
254), possible only while the server is serving; `finishSession` is the
`defer wg.Done()` of a streaming goroutine finishing — by completing or
failing on its own — possible until the process exits (line 258);
`shutdownSignal` is `<-shutdown` followed immediately by `server.Close()`
(lines 309-315), which closes the listener and touches no session;
`srvExit` is `wg.Wait()` returning (line 318) followed by the end of
`runServer` — by `sync.WaitGroup` semantics `Wait` returns only when the
counter is zero. -/
inductive SrvStep : SrvState → SrvState → Prop
  | openSession (n : Nat) :
      SrvStep ⟨Phase.running, true, n⟩ ⟨Phase.running, true, n + 1⟩
  | finishSession (ph : Phase) (lo : Bool) (n : Nat) (hph : ph ≠ Phase.stopped) :
      SrvStep ⟨ph, lo, n + 1⟩ ⟨ph, lo, n⟩
  | shutdownSignal (n : Nat) :
      SrvStep ⟨Phase.running, true, n⟩ ⟨Phase.draining, false, n⟩
  | srvExit : SrvStep ⟨Phase.draining, false, 0⟩ ⟨Phase.stopped, false, 0⟩

/-! ## Claim C8 (graceful drain on shutdown) -/

/-- C8: after the shutdown signal the server closes the HTTP listener (the
draining state has the listener closed and admits no new session
registration) but never forcibly aborts an in-flight streaming session (the
signal transition leaves the session count untouched, and the count only
ever decreases by a session finishing on its own, one at a time); the
process exits only when the session wait-group is empty (the transition into
`stopped` requires a draining state with zero active sessions). -/
theorem runServer_shutdown (s t : SrvState) (h : SrvStep s t) :
    (t.phase = Phase.stopped → s.phase = Phase.draining ∧ s.active = 0) ∧
    (s.phase = Phase.running → t.phase = Phase.draining →
      t.listenerOpen = false ∧ t.active = s.active) ∧
    (s.phase = Phase.draining → t.phase ≠ Phase.stopped →
      t.active ≤ s.active ∧ t.listenerOpen = s.listenerOpen) ∧
    (t.active < s.active → s.active = t.active + 1) := by
  cases h with
  | openSession n =>
    refine ⟨?_, ?_, ?_, ?_⟩
    · intro hc
      have hc' : Phase.running = Phase.stopped := hc
      exact absurd hc' (by decide)
    · intro _ hc
      have hc' : Phase.running = Phase.draining := hc
      exact absurd hc' (by decide)
    · intro hc
      have hc' : Phase.running = Phase.draining := hc
      exact absurd hc' (by decide)
    · intro hlt
      have hlt' : n + 1 < n := hlt
      exact absurd hlt' (by omega)
  | finishSession ph lo n hph =>
    refine ⟨fun hc => absurd hc hph, ?_, fun _ _ => ⟨Nat.le_succ n, rfl⟩,
      fun _ => rfl⟩
    intro h1 h2
    have hc' : Phase.running = Phase.draining := h1.symm.trans h2
    exact absurd hc' (by decide)
  | shutdownSignal n =>
    refine ⟨?_, fun _ _ => ⟨rfl, rfl⟩, ?_, ?_⟩
    · intro hc
      have hc' : Phase.draining = Phase.stopped := hc
      exact absurd hc' (by decide)
    · intro hc
      have hc' : Phase.running = Phase.draining := hc
      exact absurd hc' (by decide)
    · intro hlt
      have hlt' : n < n := hlt
      exact absurd hlt' (by omega)
  | srvExit =>
    refine ⟨fun _ => ⟨rfl, rfl⟩, ?_, ?_, ?_⟩
    · intro hc
      have hc' : Phase.draining = Phase.running := hc
      exact absurd hc' (by decide)
    · intro _ hc
      exact absurd (rfl : Phase.stopped = Phase.stopped) hc
    · intro hlt
      have hlt' : (0 : Nat) < 0 := hlt
      exact absurd hlt' (by omega)

/-- C8, witness: the exit transition out of the draining state, applied to
the theorem, certifies that the pre-exit state was draining with an empty
session registry. -/
theorem runServer_shutdown_witness :
    (⟨Phase.draining, false, 0⟩ : SrvState).phase = Phase.draining ∧
    (⟨Phase.draining, false, 0⟩ : SrvState).active = 0 :=
  (runServer_shutdown ⟨Phase.draining, false, 0⟩ ⟨Phase.stopped, false, 0⟩
    SrvStep.srvExit).1 rfl

end WebrtcPoc
